import Mathlib

/-!
Verification of the waybar-ai-usage scripts (`common.py`, `claude.py`,
`codex.py`).  The Python code is shallowly embedded: dictionaries become
association lists over an inductive `PyVal` of the Python values that occur
(strings, ints, floats, None), Python floats become rationals, and the two
places where the code consults the wall clock and the `datetime` parser
(`format_eta` and the "unused window" heuristic of `claude.print_waybar`)
are parameterized by an oracle `secsOf : PyVal → Option Int` giving the
whole number of seconds `int((parse(reset_at) - now).total_seconds())`,
with `none` standing for a parse failure (the `except` branches).
Recursive string scanners carry an explicit fuel argument; the exported
wrappers pass the input length as fuel, which is never exhausted because
every step consumes at least one character.
-/

deriving instance DecidableEq for Except

/-- A Python value as used by the scripts: `str`, `int`, `float` or `None`.
Floats are modelled as rationals. -/
inductive PyVal where
  | pstr (s : String)
  | pint (n : Int)
  | prat (q : Rat)
  | pnone
deriving DecidableEq

/-- Python truthiness for the values above: empty string, zero and `None`
are falsy. -/
def PyVal.truthy : PyVal → Bool
  | .pstr s => !s.isEmpty
  | .pint n => n != 0
  | .prat q => q != 0
  | .pnone => false

/-- Python `str()` of a value (as produced by `str.format` substitution). -/
def PyVal.toStr : PyVal → String
  | .pstr s => s
  | .pint n => toString n
  | .prat q => toString q
  | .pnone => "None"

/-- A Python dict with string keys, as an association list. -/
abbrev Raw := List (String × PyVal)

/-- Python `d.get(k)`: `None` both for a missing key and a stored `None`. -/
def pyGet (r : Raw) (k : String) : PyVal :=
  (List.lookup k r).getD .pnone

/-- Python `d.get(k, default)`. -/
def pyGetD (r : Raw) (k : String) (d : PyVal) : PyVal :=
  (List.lookup k r).getD d

/-- Python whitespace as removed by `str.strip()` (ASCII fragment). -/
def isPySpace (c : Char) : Bool :=
  c = ' ' || c = '\t' || c = '\n' || c = '\x0d' || c = '\x0b' || c = '\x0c'

/-- Python `str.strip()` on a character list. -/
def stripChars (l : List Char) : List Char :=
  ((l.dropWhile isPySpace).reverse.dropWhile isPySpace).reverse

/-- Nat value of a digit run (the digits of a float literal). -/
def digitsVal (l : List Char) : Nat :=
  l.foldl (fun a c => a * 10 + (c.toNat - Char.toNat '0')) 0

/-- Python `float(s)` on a string, restricted to the plain decimal syntax
`[+-]digits[.digits]` with surrounding whitespace (the scripts never feed
exponents, `inf` or `nan` to it); anything else fails. -/
def parseFloatStr (s : List Char) : Option Rat :=
  let t := stripChars s
  let signed : Rat × List Char :=
    match t with
    | '-' :: r => (-1, r)
    | '+' :: r => (1, r)
    | _ => (1, t)
  let u := signed.2
  let intPart := u.takeWhile Char.isDigit
  let rest := u.drop intPart.length
  match rest with
  | [] => if intPart.isEmpty then none else some (signed.1 * (digitsVal intPart : Rat))
  | '.' :: frac =>
    if frac.all Char.isDigit && !(intPart.isEmpty && frac.isEmpty) then
      some (signed.1 * ((digitsVal intPart : Rat) + (digitsVal frac : Rat) / (10 ^ frac.length)))
    else none
  | _ => none

/-- Python `float(v)`: succeeds on ints, floats and numeric strings;
fails (raises) otherwise. -/
def pyFloat : PyVal → Option Rat
  | .pint n => some (n : Rat)
  | .prat q => some q
  | .pstr s => parseFloatStr s.toList
  | .pnone => none

/-- `common.WindowUsage`: utilization percentage plus the untyped
`resets_at` passthrough (`pnone` when absent). -/
structure WindowUsage where
  utilization : Rat
  resets_at : PyVal
deriving DecidableEq

/-- `common.parse_window_percent`: reads `raw.get(key) or 0`, coerces with
`float(...)` defaulting to `0.0` on failure, and passes `resets_at`
through.  Total, mirroring the defensive `try/except`. -/
def parse_window_percent (raw : Option Raw) (key : String) : WindowUsage :=
  let r := raw.getD []
  let v := pyGet r key
  let util := if v.truthy then v else .pint 0
  let resets := pyGet r "resets_at"
  { utilization := (pyFloat util).getD 0, resets_at := resets }

/-- `common.parse_window_direct`: same shape with keys `used_percent` and
`reset_at`. -/
def parse_window_direct (raw : Option Raw) : WindowUsage :=
  let r := raw.getD []
  let v := pyGet r "used_percent"
  let used := if v.truthy then v else .pint 0
  let reset := pyGet r "reset_at"
  { utilization := (pyFloat used).getD 0, resets_at := reset }

/-- Python 3 `round` to an int: round half to even.  With `f = ⌊q⌋` the
fractional part is `(q.num - f * q.den) / q.den`, so comparing it with
`1/2` is comparing `2 * (q.num - f * q.den)` with `q.den`. -/
def pyRound (q : Rat) : Int :=
  let f : Int := q.floor
  let num2 : Int := 2 * (q.num - f * (q.den : Int))
  if num2 < (q.den : Int) then f
  else if (q.den : Int) < num2 then f + 1
  else if f % 2 = 0 then f else f + 1

/-- Python `"{n:02}"` for the ints produced by `format_eta` (two digits,
zero padded; negative numbers render with their sign as in Python). -/
def pad2 (n : Int) : String :=
  if 0 ≤ n ∧ n < 10 then "0" ++ toString n else toString n

/-- `common.format_eta`.  `secsOf` abstracts the `datetime` machinery: it
returns `int((reset_dt - now).total_seconds())`, or `none` when parsing the
timestamp raises (the `except` branch). -/
def format_eta (secsOf : PyVal → Option Int) (reset_at : PyVal) : String :=
  if !reset_at.truthy then "0′00″"
  else
    match secsOf reset_at with
    | none => "??′??″"
    | some secs =>
      if secs ≤ 0 then "0m00s"
      else if 86400 ≤ secs then
        toString (secs / 86400) ++ "d" ++ pad2 (secs % 86400 / 3600) ++ "h"
      else if 3600 ≤ secs then
        toString (secs / 3600) ++ "h" ++ pad2 (secs % 3600 / 60) ++ "m"
      else
        toString (secs / 60) ++ "m" ++ pad2 (secs % 60) ++ "s"

/-! ## The template engine `common.format_output`

The engine is three passes over the format string:
1. `re.sub` of the multi-variable conditional `\{\?([^}]+&[^}]+)\}(.*?)\{/\}`,
2. `re.sub` of the single-variable conditional `\{\?(\w+)\}(.*?)\{/\1\}`,
3. a final `str.format(**data)`.
Each pass is a left-to-right scan that either matches at the current
position (and resumes after the match) or advances one character, exactly
as `re.sub` does.  Template-render errors (`KeyError` and friends raised
by `str.format`) are modelled by `Except Unit`. -/

/-- `listStartsWith p l` iff `p` is an initial segment of `l`. -/
def listStartsWith : List Char → List Char → Bool
  | [], _ => true
  | _ :: _, [] => false
  | a :: p, b :: l => a == b && listStartsWith p l

/-- Python `needle in hay` on character lists. -/
def listContainsSub (n : List Char) : List Char → Bool
  | [] => listStartsWith n []
  | c :: t => listStartsWith n (c :: t) || listContainsSub n t

/-- Python `needle in hay` on strings. -/
def containsSub (hay needle : String) : Bool :=
  listContainsSub needle.toList hay.toList

/-- The lazy `(.*?)\{/\}` tail of the multi-variable conditional pattern:
the shortest newline-free run of characters followed by the literal close
tag; `.` does not match a newline (no `re.DOTALL`). -/
def findClose : List Char → Option (List Char × List Char)
  | [] => none
  | c :: r =>
    if c = '{' && listStartsWith [ '/', '}'] r then some ([], r.drop 2)
    else if c = '\n' then none
    else (findClose r).map fun p => (c :: p.1, p.2)

/-- The lazy `(.*?)\{/\1\}` tail of the single-variable conditional
pattern, with the back-referenced variable name in the close tag. -/
def findCloseTag (tag : List Char) : List Char → Option (List Char × List Char)
  | [] => none
  | c :: r =>
    if listStartsWith ('{' :: '/' :: (tag ++ [ '}'])) (c :: r) then
      some ([], (c :: r).drop (tag.length + 3))
    else if c = '\n' then none
    else (findCloseTag tag r).map fun p => (c :: p.1, p.2)

/-- Python `str.split` on the separator `&` (keeps empty pieces). -/
def splitAmp : List Char → List (List Char)
  | [] => [[]]
  | c :: t =>
    if c = '&' then [] :: splitAmp t
    else
      match splitAmp t with
      | h :: r => (c :: h) :: r
      | [] => [[c]]

/-- One attempted match of `\{\?([^}]+&[^}]+)\}(.*?)\{/\}` at the head of
the input: group 1 is the run of non-`}` characters after `{?` (it must
contain an `&` at an interior position, i.e. with at least one character
on each side), group 2 is the lazy newline-free content before `{/}`.
Returns the variable names of group 1 split at `&` and stripped, the
content, and the input after the match. -/
def tryMulti (s : List Char) : Option (List String × List Char × List Char) :=
  if listStartsWith [ '{', '?'] s then
    let t := s.drop 2
    let g1 := t.takeWhile (fun c => c != '}')
    match t.drop g1.length with
    | '}' :: u =>
      if ((g1.drop 1).dropLast).contains '&' then
        match findClose u with
        | some (content, rest) =>
          some ((splitAmp g1).map (fun n => String.mk (stripChars n)), content, rest)
        | none => none
      else none
    | _ => none
  else none

/-- Python `\w` (ASCII fragment: the variable names the scripts use). -/
def isWordChar (c : Char) : Bool :=
  c.isAlphanum || c = '_'

/-- One attempted match of `\{\?(\w+)\}(.*?)\{/\1\}` at the head of the
input: a nonempty word-character name after `{?`, then `}`, then the lazy
newline-free content before the back-referenced `{/name}`. -/
def trySingle (s : List Char) : Option (List Char × List Char × List Char) :=
  if listStartsWith [ '{', '?'] s then
    let t := s.drop 2
    let g1 := t.takeWhile isWordChar
    if g1.isEmpty then none
    else
      match t.drop g1.length with
      | '}' :: u =>
        match findCloseTag g1 u with
        | some (content, rest) => some (g1, content, rest)
        | none => none
      | _ => none
  else none

/-- The conditional-block guard: `data.get(v, "")` is truthy and not the
`"Not started"` sentinel. -/
def condValidB (data : Raw) (v : String) : Bool :=
  let x := (List.lookup v data).getD (.pstr "")
  x.truthy && x != PyVal.pstr "Not started"

/-- `all_valid` of `replace_multi_conditional`: every listed name passes
the guard. -/
def allValid (data : Raw) (vars : List String) : Bool :=
  vars.all (condValidB data)

/-- Python `str.format(**data)`, fuelled.  Restricted to the feature set
the templates use: `{{` and `}}` escapes and plain `{name}` fields looked
up as keywords.  A field name that is empty or all digits is a positional
reference and raises (`IndexError`: no positional arguments are passed);
an unknown keyword raises `KeyError`; a stray `{`, `}` or a brace inside a
field name raises `ValueError`.  Conversions and format specs
(`!r`, `:>5`, attribute access) are outside the modelled fragment. -/
def pyFormatF (data : Raw) : Nat → List Char → Except Unit (List Char)
  | _, [] => .ok []
  | 0, _ :: _ => .error ()
  | fuel + 1, c :: t =>
    if c = '{' then
      if listStartsWith [ '{'] t then
        (fun r => '{' :: r) <$> pyFormatF data fuel (t.drop 1)
      else
        let name := t.takeWhile (fun d => !(d == '{' || d == '}'))
        match t.drop name.length with
        | '}' :: rest =>
          if name.isEmpty || name.all Char.isDigit then .error ()
          else
            match List.lookup (String.mk name) data with
            | some v => (fun r => v.toStr.toList ++ r) <$> pyFormatF data fuel rest
            | none => .error ()
        | _ => .error ()
    else if c = '}' then
      if listStartsWith [ '}'] t then
        (fun r => '}' :: r) <$> pyFormatF data fuel (t.drop 1)
      else .error ()
    else (fun r => c :: r) <$> pyFormatF data fuel t

/-- `str.format(**data)` with adequate fuel. -/
def pyFormat (data : Raw) (l : List Char) : Except Unit (List Char) :=
  pyFormatF data l.length l

/-- The multi-variable conditional pass (`re.sub` with
`replace_multi_conditional`), fuelled: at each position either match the
pattern, emit `content.format(**data)` when all variables pass the guard
(empty string otherwise) and resume after the match, or emit the current
character and advance one. -/
def multiPassF (data : Raw) : Nat → List Char → Except Unit (List Char)
  | _, [] => .ok []
  | 0, _ :: _ => .ok []
  | fuel + 1, c :: t =>
    match tryMulti (c :: t) with
    | some (vars, content, rest) => do
      let piece ← if allValid data vars then pyFormat data content else pure []
      let tail ← multiPassF data fuel rest
      pure (piece ++ tail)
    | none => do
      let tail ← multiPassF data fuel t
      pure (c :: tail)

/-- The multi-variable conditional pass with adequate fuel. -/
def multiSub (data : Raw) (l : List Char) : Except Unit (List Char) :=
  multiPassF data l.length l

/-- The single-variable conditional pass (`re.sub` with
`replace_conditional`), fuelled. -/
def singlePassF (data : Raw) : Nat → List Char → Except Unit (List Char)
  | _, [] => .ok []
  | 0, _ :: _ => .ok []
  | fuel + 1, c :: t =>
    match trySingle (c :: t) with
    | some (name, content, rest) => do
      let piece ← if condValidB data (String.mk name) then pyFormat data content else pure []
      let tail ← singlePassF data fuel rest
      pure (piece ++ tail)
    | none => do
      let tail ← singlePassF data fuel t
      pure (c :: tail)

/-- The single-variable conditional pass with adequate fuel. -/
def singleSub (data : Raw) (l : List Char) : Except Unit (List Char) :=
  singlePassF data l.length l

/-- `common.format_output`: multi-variable conditionals, then
single-variable conditionals, then the final `str.format(**data)`.
A raised `KeyError`/`ValueError`/`IndexError` is `.error ()`. -/
def format_output (format_string : String) (data : Raw) : Except Unit String := do
  let r1 ← multiSub data format_string.toList
  let r2 ← singleSub data r1
  let r3 ← pyFormat data r2
  pure (String.mk r3)

/-! ## The window classifiers of `claude.print_waybar` and
`codex.print_waybar`

Only the pure classification core is embedded: the selected window, its
rounded percentage, the status label, the active reset string, the
severity class and the `percentage` field of the waybar payload.  The two
raw windows stand for `usage.get("five_hour")` / `usage.get("seven_day")`
(claude) and `rate.get("primary_window")` / `rate.get("secondary_window")`
(codex); an absent or `null` window is `none`. -/

/-- The fields of the waybar payload that the classifier determines. -/
structure WaybarResult where
  win : String
  pct : Int
  status : String
  reset : String
  cls : String
  percentage : Int
deriving DecidableEq

/-- The active-window selection of `claude.print_waybar` (lines 110-133):
the parsed target window, its label and its nominal length in seconds. -/
def claudeSelect (fh sd : WindowUsage) (show_5h : Bool) : WindowUsage × String × Int :=
  if show_5h then (fh, "5h", 18000)
  else if (100 : Rat) ≤ sd.utilization then (sd, "7d", 604800)
  else if (80 : Rat) < sd.utilization then (sd, "7d", 604800)
  else (fh, "5h", 18000)

/-- The severity class of `claude.print_waybar` (lines 210-215). -/
def claudeCls (pct : Int) : String :=
  if pct < 50 then "claude-low"
  else if pct < 80 then "claude-mid"
  else "claude-high"

/-- The classification core of `claude.print_waybar`.  `secsOf` abstracts
the inline `datetime` parse of `target.resets_at` exactly as in
`format_eta`; the `except: pass` around it leaves `is_unused` false. -/
def claude_print_waybar (secsOf : PyVal → Option Int)
    (five_hour seven_day : Option Raw) (show_5h : Bool) : WaybarResult :=
  let fh := parse_window_percent five_hour "utilization"
  let sd := parse_window_percent seven_day "utilization"
  let sel := claudeSelect fh sd show_5h
  let target := sel.1
  let win_name := sel.2.1
  let window_length := sel.2.2
  let pct := pyRound target.utilization
  let window_not_started := decide (target.utilization = 0) && decide (target.resets_at = PyVal.pnone)
  let is_unused := decide (target.utilization = 0) && target.resets_at.truthy &&
    (match secsOf target.resets_at with
     | some reset_after => decide (window_length - 1 ≤ reset_after)
     | none => false)
  let status :=
    if (100 : Rat) ≤ sd.utilization then "Pause"
    else if is_unused || window_not_started then "Ready"
    else ""
  { win := win_name
    pct := pct
    status := status
    reset := if target.resets_at.truthy then format_eta secsOf target.resets_at else "Not started"
    cls := claudeCls pct
    percentage := if show_5h then pyRound fh.utilization else pct }

/-- The active-window selection of `codex.print_waybar` (lines 109-128):
the parsed target window, its raw mapping and its label. -/
def codexSelect (p_win s_win : WindowUsage) (p_raw s_raw : Raw) (show_5h : Bool) :
    WindowUsage × Raw × String :=
  if show_5h then (p_win, p_raw, "Primary")
  else if (100 : Rat) ≤ s_win.utilization then (s_win, s_raw, "Secondary")
  else if (80 : Rat) < s_win.utilization then (s_win, s_raw, "Secondary")
  else (p_win, p_raw, "Primary")

/-- The severity class of `codex.print_waybar` (lines 191-196). -/
def codexCls (pct : Int) : String :=
  if pct < 50 then "codex-low"
  else if pct < 80 then "codex-mid"
  else "codex-high"

/-- Python `v == 0` for a raw field value (`int`/`float` compare equal to
`0`; other types are simply unequal, no error). -/
def pyEqZero : PyVal → Bool
  | .pint n => n == 0
  | .prat q => q == 0
  | _ => false

/-- Numeric view of a raw field for Python arithmetic comparison; `none`
means a `TypeError` would be raised. -/
def pyNumQ : PyVal → Option Rat
  | .pint n => some (n : Rat)
  | .prat q => some q
  | _ => none

/-- The classification core of `codex.print_waybar`.  The `is_unused`
computation reads `used_percent`, `reset_after_seconds` and
`limit_window_seconds` from the raw target window with default `0`; a
non-numeric field in `reset_after >= window_length - 1` raises
(`.error ()`), except when `used_pct == 0` is already false and `and`
short-circuits. -/
def codex_print_waybar (secsOf : PyVal → Option Int)
    (primary secondary : Option Raw) (show_5h : Bool) : Except Unit WaybarResult := do
  let p_win := parse_window_direct primary
  let s_win := parse_window_direct secondary
  let p_raw := primary.getD []
  let s_raw := secondary.getD []
  let sel := codexSelect p_win s_win p_raw s_raw show_5h
  let target_win := sel.1
  let target_raw := sel.2.1
  let win_type := sel.2.2
  let pct := pyRound target_win.utilization
  let used_pct := pyGetD target_raw "used_percent" (.pint 0)
  let reset_after := pyGetD target_raw "reset_after_seconds" (.pint 0)
  let window_length := pyGetD target_raw "limit_window_seconds" (.pint 0)
  let is_unused ←
    if pyEqZero used_pct then
      match pyNumQ reset_after, pyNumQ window_length with
      | some ra, some wl => pure (decide (wl - 1 ≤ ra))
      | _, _ => .error ()
    else pure false
  let window_not_started := decide (target_win.utilization = 0) && decide (target_win.resets_at = PyVal.pnone)
  let status :=
    if (100 : Rat) ≤ s_win.utilization then "Pause"
    else if is_unused || window_not_started then "Ready"
    else ""
  pure
    { win := win_type
      pct := pct
      status := status
      reset := if target_win.resets_at.truthy then format_eta secsOf target_win.resets_at else "Not started"
      cls := codexCls pct
      percentage := pct }

/-! ## The fetch-failure exit paths of `claude.main` and `codex.main`

When `get_claude_usage` / `get_codex_usage` raises, `main` either prints a
`json.dumps` payload on stdout and exits 0 (waybar mode) or prints a
message on stderr and exits 1.  `json.dumps` with its default
`ensure_ascii=True` is embedded far enough to render the three-field error
object. -/

/-- Lowercase hex digit of `n % 16`. -/
def hexDigit (n : Nat) : Char :=
  match n % 16 with
  | 0 => '0' | 1 => '1' | 2 => '2' | 3 => '3' | 4 => '4'
  | 5 => '5' | 6 => '6' | 7 => '7' | 8 => '8' | 9 => '9'
  | 10 => 'a' | 11 => 'b' | 12 => 'c' | 13 => 'd' | 14 => 'e'
  | _ => 'f'

/-- Four lowercase hex digits of `n` (a `\uXXXX` escape body). -/
def hex4 (n : Nat) : List Char :=
  [hexDigit (n / 4096), hexDigit (n / 256), hexDigit (n / 16), hexDigit n]

/-- A `\uXXXX` escape. -/
def uEscape (m : Nat) : List Char :=
  '\\' :: 'u' :: hex4 m

/-- The escape `json.dumps` emits for one character (`ensure_ascii=True`:
everything outside `0x20`-`0x7e` becomes a `\uXXXX` escape, astral
characters a surrogate pair). -/
def jsonEscapeChar (c : Char) : List Char :=
  if c = '"' then [ '\\', '"']
  else if c = '\\' then [ '\\', '\\']
  else if c = '\n' then [ '\\', 'n']
  else if c = '\t' then [ '\\', 't']
  else if c = '\x0d' then [ '\\', 'r']
  else if c = '\x08' then [ '\\', 'b']
  else if c = '\x0c' then [ '\\', 'f']
  else if c.toNat < 32 || 127 ≤ c.toNat then
    if c.toNat ≤ 65535 then uEscape c.toNat
    else
      let v := c.toNat - 65536
      uEscape (55296 + v / 1024) ++ uEscape (56320 + v % 1024)
  else [c]

/-- `json.dumps` escaping of a whole string. -/
def jsonEscape (s : String) : List Char :=
  s.toList.foldr (fun c acc => jsonEscapeChar c ++ acc) []

/-- One `"key": "value"` member of the dumped object. -/
def jsonMember (kv : String × String) : List Char :=
  '"' :: (jsonEscape kv.1 ++ ('"' :: ':' :: ' ' :: '"' :: (jsonEscape kv.2 ++ [ '"'])))

/-- The `", "`-separated members of the dumped object. -/
def jsonMembers : List (String × String) → List Char
  | [] => []
  | [kv] => jsonMember kv
  | kv :: rest => jsonMember kv ++ (',' :: ' ' :: jsonMembers rest)

/-- `json.dumps` of a flat string-valued object, with the default
`", "` / `": "` separators and insertion order preserved. -/
def jsonDumps (kvs : List (String × String)) : String :=
  String.mk ('\x7b' :: (jsonMembers kvs ++ [ '\x7d']))

/-- Where a fetch-failure message lands. -/
inductive Channel where
  | stdout
  | stderr
deriving DecidableEq

/-- What `main` does after a fetch failure: which stream it prints to,
what it prints, and the exit code. -/
structure FetchErrorExit where
  channel : Channel
  output : String
  code : Nat
deriving DecidableEq

/-- The `except` branch of `claude.main` (lines 265-277): waybar mode
prints the `json.dumps` error payload on stdout and exits 0; otherwise a
message goes to stderr and the exit code is 1. -/
def claude_fetch_error_exit (waybar : Bool) (err_msg : String) : FetchErrorExit :=
  if waybar then
    let short_err := if containsSub err_msg "403" then "Auth Err" else "Net Err"
    { channel := .stdout
      output := jsonDumps
        [("text", "<span foreground=\x27#ff5555\x27>󰜡 " ++ short_err ++ "</span>"),
         ("tooltip", "Error fetching Claude usage:\n" ++ err_msg),
         ("class", "critical")]
      code := 0 }
  else
    { channel := .stderr
      output := "[!] Critical Error: " ++ err_msg
      code := 1 }

/-- The `except` branch of `codex.main` (lines 251-263): mirrors claude,
with `401` also classified as an auth error. -/
def codex_fetch_error_exit (waybar : Bool) (err_msg : String) : FetchErrorExit :=
  if waybar then
    let short_err :=
      if containsSub err_msg "403" || containsSub err_msg "401" then "Auth Err" else "Net Err"
    { channel := .stdout
      output := jsonDumps
        [("text", "<span foreground=\x27#ff5555\x27>󰬫 " ++ short_err ++ "</span>"),
         ("tooltip", "Error:\n" ++ err_msg),
         ("class", "critical")]
      code := 0 }
  else
    { channel := .stderr
      output := "[!] Critical Error: " ++ err_msg
      code := 1 }

/-! ## Spec-side auxiliary definitions

Predicates and template fragments used to state the claims.  `Tmpl` lists
describe residual format strings as an interleaving of literal text and
`{name}` placeholders, so that claims about the final substitution pass
can quantify over all such strings. -/

/-- The target window, its label and its nominal length as
`claude.print_waybar` computes them from the two raw windows. -/
def claudeTarget (five_hour seven_day : Option Raw) (show_5h : Bool) :
    WindowUsage × String × Int :=
  claudeSelect (parse_window_percent five_hour "utilization")
    (parse_window_percent seven_day "utilization") show_5h

/-- "The variable, looked up in the mapping, is present and not equal to
the sentinel" — the condition the spec text states for conditional
blocks (as opposed to the truthiness test the code performs). -/
def presentNotSentinelB (data : Raw) (v : String) : Bool :=
  match List.lookup v data with
  | some x => x != PyVal.pstr "Not started"
  | none => false

/-- No position of the list starts the two-character sequence `{?` that
both conditional-pass patterns require. -/
def noQB : List Char → Bool
  | [] => true
  | c :: t => !(listStartsWith [ '{', '?'] (c :: t)) && noQB t

/-- A fragment of a residual format string: literal text or a `{name}`
placeholder. -/
inductive Tmpl where
  | lit (s : List Char)
  | hole (name : List Char)

/-- The format string a fragment list denotes. -/
def flattenT : List Tmpl → List Char
  | [] => []
  | .lit s :: ts => s ++ flattenT ts
  | .hole n :: ts => '{' :: (n ++ '}' :: flattenT ts)

/-- The same string with every placeholder replaced by the `str()` of its
value in the mapping. -/
def substT (data : Raw) : List Tmpl → List Char
  | [] => []
  | .lit s :: ts => s ++ substT data ts
  | .hole n :: ts =>
    (((List.lookup (String.mk n) data).map PyVal.toStr).getD "").toList ++ substT data ts

/-- Every placeholder name is a key of the mapping. -/
def allKeysT (data : Raw) : List Tmpl → Bool
  | [] => true
  | .lit _ :: ts => allKeysT data ts
  | .hole n :: ts => (List.lookup (String.mk n) data).isSome && allKeysT data ts

/-- Well-formedness of a fragment as the claim states it: literal text
without braces, placeholder names that are nonempty runs of word
characters. -/
def TmplStated : Tmpl → Prop
  | .lit s => ∀ c ∈ s, c ≠ '{' ∧ c ≠ '}'
  | .hole n => n ≠ [] ∧ ∀ c ∈ n, isWordChar c = true

/-- Well-formedness with the extra exclusion the code imposes: an
all-digit placeholder name is a positional reference to `str.format` and
raises even when it is a key of the mapping. -/
def TmplOK : Tmpl → Prop
  | .lit s => ∀ c ∈ s, c ≠ '{' ∧ c ≠ '}'
  | .hole n => n ≠ [] ∧ (∀ c ∈ n, isWordChar c = true) ∧ ¬(n.all Char.isDigit = true)

/-- Claim C1 as stated: over a single multi-variable conditional block
with two well-formed variable names and brace- and newline-free content,
`format_output` emits the content exactly when both variables are present
in the mapping and not equal to the sentinel. -/
def C1Claim : Prop :=
  ∀ (data : Raw) (v1 v2 content : List Char),
    v1 ≠ [] → v2 ≠ [] →
    (∀ c ∈ v1, c ≠ '}' ∧ c ≠ '&' ∧ isPySpace c = false) →
    (∀ c ∈ v2, c ≠ '}' ∧ c ≠ '&' ∧ isPySpace c = false) →
    (∀ c ∈ content, c ≠ '{' ∧ c ≠ '}' ∧ c ≠ '\n') →
    format_output
        (String.mk ('{' :: '?' :: (v1 ++ '&' :: v2 ++ '}' :: (content ++ [ '{', '/', '}'])))) data
      = .ok (String.mk
          (if presentNotSentinelB data (String.mk v1) && presentNotSentinelB data (String.mk v2)
           then content else []))

/-- Claim C3 as stated: when the Pause rule does not apply, the status is
`Ready` exactly when the target window has utilization 0 and either no
reset timestamp at all or a remaining time within 1 second (in absolute
value) of the window's nominal length. -/
def C3Claim : Prop :=
  ∀ (secsOf : PyVal → Option Int) (five_hour seven_day : Option Raw) (show_5h : Bool),
    (parse_window_percent seven_day "utilization").utilization < 100 →
    ((claude_print_waybar secsOf five_hour seven_day show_5h).status = "Ready" ↔
      ((claudeTarget five_hour seven_day show_5h).1.utilization = 0 ∧
        ((claudeTarget five_hour seven_day show_5h).1.resets_at = PyVal.pnone ∨
          ∃ rem : Int,
            secsOf (claudeTarget five_hour seven_day show_5h).1.resets_at = some rem ∧
            (rem - (claudeTarget five_hour seven_day show_5h).2.2).natAbs ≤ 1)))

/-- Claim C8 as stated: on a residual string of literal text and
well-formed `{name}` placeholders, the final pass substitutes every
placeholder whose name is a key and fails the whole render when some
name is not a key. -/
def C8Claim : Prop :=
  ∀ (data : Raw) (ts : List Tmpl),
    (∀ t ∈ ts, TmplStated t) →
    format_output (String.mk (flattenT ts)) data =
      if allKeysT data ts then .ok (String.mk (substT data ts)) else .error ()

/-! ## Helper lemmas -/

theorem listStartsWith_nil (l : List Char) : listStartsWith [] l = true := rfl

theorem listStartsWith_cons_of_ne {a b : Char} (h : a ≠ b) (p l : List Char) :
    listStartsWith (a :: p) (b :: l) = false := by
  simp [listStartsWith, h]

theorem takeWhile_boundary (p : Char → Bool) (A : List Char) (b : Char) (r : List Char)
    (hA : ∀ c ∈ A, p c = true) (hb : p b = false) :
    (A ++ b :: r).takeWhile p = A ∧ (A ++ b :: r).drop A.length = b :: r := by
  induction A with
  | nil => simp [List.takeWhile_cons, hb]
  | cons a A ih =>
    have ha : p a = true := hA a (by simp)
    have h2 := ih (fun c hc => hA c (by simp [hc]))
    simp [List.takeWhile_cons, ha, h2.1, h2.2]

theorem findClose_append (content : List Char) (r : List Char)
    (h : ∀ c ∈ content, c ≠ '{' ∧ c ≠ '\n') :
    findClose (content ++ '{' :: '/' :: '}' :: r) = some (content, r) := by
  induction content with
  | nil => simp [findClose, listStartsWith]
  | cons c cs ih =>
    have hc := h c (by simp)
    have h2 := ih (fun d hd => h d (by simp [hd]))
    simp [findClose, hc.1, hc.2, h2]

theorem splitAmp_no_amp (l : List Char) (h : ∀ c ∈ l, c ≠ '&') : splitAmp l = [l] := by
  induction l with
  | nil => rfl
  | cons c cs ih =>
    have hc := h c (by simp)
    have h2 := ih (fun d hd => h d (by simp [hd]))
    simp [splitAmp, hc, h2]

theorem splitAmp_pair (v1 v2 : List Char)
    (h1 : ∀ c ∈ v1, c ≠ '&') (h2 : ∀ c ∈ v2, c ≠ '&') :
    splitAmp (v1 ++ '&' :: v2) = [v1, v2] := by
  induction v1 with
  | nil => simp [splitAmp, splitAmp_no_amp v2 h2]
  | cons c cs ih =>
    have hc := h1 c (by simp)
    have h3 := ih (fun d hd => h1 d (by simp [hd]))
    simp [splitAmp, hc, h3]

theorem stripChars_id (l : List Char) (h : ∀ c ∈ l, isPySpace c = false) :
    stripChars l = l := by
  unfold stripChars
  have h1 : l.dropWhile isPySpace = l := by
    cases l with
    | nil => rfl
    | cons c cs => simp [List.dropWhile_cons, h c (by simp)]
  rw [h1]
  have h2 : l.reverse.dropWhile isPySpace = l.reverse := by
    cases hrev : l.reverse with
    | nil => rfl
    | cons c cs =>
      have : c ∈ l := by
        have : c ∈ l.reverse := by rw [hrev]; simp
        simpa using this
      simp [List.dropWhile_cons, h c this]
  rw [h2, List.reverse_reverse]

theorem interior_amp (v1 v2 : List Char) (h1 : v1 ≠ []) (h2 : v2 ≠ []) :
    (((v1 ++ '&' :: v2).drop 1).dropLast).contains '&' = true := by
  obtain ⟨a, v1', rfl⟩ := List.exists_cons_of_ne_nil h1
  obtain ⟨b, v2', rfl⟩ := List.exists_cons_of_ne_nil h2
  have hmem : '&' ∈ ((v1' ++ '&' :: b :: v2').dropLast) := by
    rw [List.dropLast_append_of_ne_nil _ (by simp)]
    simp
  show ((v1' ++ '&' :: b :: v2').dropLast).contains '&' = true
  exact List.elem_eq_true_of_mem hmem

theorem tryMulti_block (v1 v2 content : List Char)
    (h1 : v1 ≠ []) (h2 : v2 ≠ [])
    (hn1 : ∀ c ∈ v1, c ≠ '}' ∧ c ≠ '&') (hn2 : ∀ c ∈ v2, c ≠ '}' ∧ c ≠ '&')
    (hc : ∀ c ∈ content, c ≠ '{' ∧ c ≠ '\n') :
    tryMulti ('{' :: '?' :: (v1 ++ '&' :: v2 ++ '}' :: (content ++ [ '{', '/', '}'])))
      = some ([String.mk (stripChars v1), String.mk (stripChars v2)], content, []) := by
  have hA : ∀ c ∈ v1 ++ '&' :: v2, (c != '}') = true := by
    intro c hcm
    rcases List.mem_append.mp hcm with h | h
    · simp [(hn1 c h).1]
    · rcases List.mem_cons.mp h with rfl | h
      · decide
      · simp [(hn2 c h).1]
  have htw := takeWhile_boundary (fun c => c != '}') (v1 ++ '&' :: v2) '}'
      (content ++ [ '{', '/', '}']) hA (by decide)
  have hfc : findClose (content ++ [ '{', '/', '}']) = some (content, []) :=
    findClose_append content [] hc
  have hsplit : splitAmp (v1 ++ '&' :: v2) = [v1, v2] :=
    splitAmp_pair v1 v2 (fun c h => (hn1 c h).2) (fun c h => (hn2 c h).2)
  have hamp := interior_amp v1 v2 h1 h2
  have hassoc : v1 ++ '&' :: v2 ++ '}' :: (content ++ [ '{', '/', '}'])
      = (v1 ++ '&' :: v2) ++ '}' :: (content ++ [ '{', '/', '}']) := by
    simp [List.append_assoc]
  simp only [tryMulti, listStartsWith]
  rw [if_pos (by simp)]
  simp only [List.drop_succ_cons, List.drop_zero, hassoc, htw.1, htw.2, hamp, hfc, hsplit]
  simp

theorem multiPassF_cons_match (data : Raw) (fuel : Nat) (c : Char) (t : List Char)
    (vars : List String) (content rest : List Char)
    (h : tryMulti (c :: t) = some (vars, content, rest)) :
    multiPassF data (fuel + 1) (c :: t) =
      (do
        let piece ← if allValid data vars then pyFormat data content else pure []
        let tail ← multiPassF data fuel rest
        pure (piece ++ tail)) := by
  simp [multiPassF, h]

theorem multiPassF_cons_none (data : Raw) (fuel : Nat) (c : Char) (t : List Char)
    (h : tryMulti (c :: t) = none) :
    multiPassF data (fuel + 1) (c :: t) =
      (do
        let tail ← multiPassF data fuel t
        pure (c :: tail)) := by
  simp [multiPassF, h]

theorem singlePassF_cons_none (data : Raw) (fuel : Nat) (c : Char) (t : List Char)
    (h : trySingle (c :: t) = none) :
    singlePassF data (fuel + 1) (c :: t) =
      (do
        let tail ← singlePassF data fuel t
        pure (c :: tail)) := by
  simp [singlePassF, h]

theorem tryMulti_not_start (s : List Char) (h : listStartsWith [ '{', '?'] s = false) :
    tryMulti s = none := by
  simp [tryMulti, h]

theorem trySingle_not_start (s : List Char) (h : listStartsWith [ '{', '?'] s = false) :
    trySingle s = none := by
  simp [trySingle, h]

theorem pyFormatF_plain (data : Raw) (l : List Char) :
    ∀ fuel, l.length ≤ fuel → (∀ c ∈ l, c ≠ '{' ∧ c ≠ '}') →
      pyFormatF data fuel l = .ok l := by
  induction l with
  | nil => intro fuel _ _; cases fuel <;> rfl
  | cons c t ih =>
    intro fuel hf hch
    cases fuel with
    | zero => simp at hf
    | succ f =>
      have hc := hch c (by simp)
      have hrec := ih f (by simp at hf; omega) (fun d hd => hch d (by simp [hd]))
      simp [pyFormatF, hc.1, hc.2, hrec]

theorem pyFormat_plain (data : Raw) (l : List Char)
    (h : ∀ c ∈ l, c ≠ '{' ∧ c ≠ '}') : pyFormat data l = .ok l :=
  pyFormatF_plain data l l.length le_rfl h

theorem noQB_of_ne (c : Char) (t : List Char) (h : c ≠ '{') :
    noQB (c :: t) = noQB t := by
  simp [noQB, listStartsWith, Ne.symm h]

theorem noQB_brace (c : Char) (t : List Char) (h : c ≠ '?') :
    noQB ('{' :: c :: t) = noQB (c :: t) := by
  simp [noQB, listStartsWith, Ne.symm h]

theorem noQB_plain (l : List Char) (h : ∀ c ∈ l, c ≠ '{') : noQB l = true := by
  induction l with
  | nil => rfl
  | cons c t ih =>
    rw [noQB_of_ne c t (h c (by simp))]
    exact ih (fun d hd => h d (by simp [hd]))

theorem noQB_append_plain (s t : List Char) (hs : ∀ c ∈ s, c ≠ '{') :
    noQB (s ++ t) = noQB t := by
  induction s with
  | nil => rfl
  | cons c s ih =>
    rw [List.cons_append, noQB_of_ne c _ (hs c (by simp))]
    exact ih (fun d hd => hs d (by simp [hd]))

theorem multiPassF_id (data : Raw) (l : List Char) :
    ∀ fuel, l.length ≤ fuel → noQB l = true → multiPassF data fuel l = .ok l := by
  induction l with
  | nil => intro fuel _ _; cases fuel <;> rfl
  | cons c t ih =>
    intro fuel hf hq
    cases fuel with
    | zero => simp at hf
    | succ f =>
      have hq2 : (!(listStartsWith [ '{', '?'] (c :: t)) && noQB t) = true := hq
      rw [Bool.and_eq_true] at hq2
      have hs : listStartsWith [ '{', '?'] (c :: t) = false := by
        have := hq2.1
        simpa using this
      rw [multiPassF_cons_none data f c t (tryMulti_not_start _ hs)]
      rw [ih f (by simp at hf; omega) hq2.2]
      rfl

theorem singlePassF_id (data : Raw) (l : List Char) :
    ∀ fuel, l.length ≤ fuel → noQB l = true → singlePassF data fuel l = .ok l := by
  induction l with
  | nil => intro fuel _ _; cases fuel <;> rfl
  | cons c t ih =>
    intro fuel hf hq
    cases fuel with
    | zero => simp at hf
    | succ f =>
      have hq2 : (!(listStartsWith [ '{', '?'] (c :: t)) && noQB t) = true := hq
      rw [Bool.and_eq_true] at hq2
      have hs : listStartsWith [ '{', '?'] (c :: t) = false := by
        have := hq2.1
        simpa using this
      rw [singlePassF_cons_none data f c t (trySingle_not_start _ hs)]
      rw [ih f (by simp at hf; omega) hq2.2]
      rfl

theorem singleSub_plain (data : Raw) (l : List Char) (h : ∀ c ∈ l, c ≠ '{') :
    singleSub data l = .ok l :=
  singlePassF_id data l l.length le_rfl (noQB_plain l h)

theorem ok_bind {α β : Type} (a : α) (f : α → Except Unit β) :
    (Except.ok a >>= f : Except Unit β) = f a := rfl

theorem multiSub_block (data : Raw) (v1 v2 content : List Char)
    (h1 : v1 ≠ []) (h2 : v2 ≠ [])
    (hn1 : ∀ c ∈ v1, c ≠ '}' ∧ c ≠ '&' ∧ isPySpace c = false)
    (hn2 : ∀ c ∈ v2, c ≠ '}' ∧ c ≠ '&' ∧ isPySpace c = false)
    (hc : ∀ c ∈ content, c ≠ '{' ∧ c ≠ '}' ∧ c ≠ '\n') :
    multiSub data ('{' :: '?' :: (v1 ++ '&' :: v2 ++ '}' :: (content ++ [ '{', '/', '}'])))
      = .ok (if condValidB data (String.mk v1) && condValidB data (String.mk v2)
             then content else []) := by
  have htm : tryMulti ('{' :: '?' :: (v1 ++ '&' :: v2 ++ '}' :: (content ++ [ '{', '/', '}'])))
      = some ([String.mk v1, String.mk v2], content, []) := by
    have hb := tryMulti_block v1 v2 content h1 h2
      (fun c h => ⟨(hn1 c h).1, (hn1 c h).2.1⟩)
      (fun c h => ⟨(hn2 c h).1, (hn2 c h).2.1⟩)
      (fun c h => ⟨(hc c h).1, (hc c h).2.2⟩)
    rw [stripChars_id v1 (fun c h => (hn1 c h).2.2),
        stripChars_id v2 (fun c h => (hn2 c h).2.2)] at hb
    exact hb
  show multiPassF data _ _ = _
  rw [show ('{' :: '?' :: (v1 ++ '&' :: v2 ++ '}' :: (content ++ [ '{', '/', '}']))).length
      = ((v1 ++ '&' :: v2 ++ '}' :: (content ++ [ '{', '/', '}'])).length + 1) + 1 by simp]
  rw [multiPassF_cons_match data _ _ _ _ _ _ htm]
  have hav : allValid data [String.mk v1, String.mk v2]
      = (condValidB data (String.mk v1) && condValidB data (String.mk v2)) := by
    simp [allValid, Bool.and_assoc]
  rw [hav]
  cases hb : condValidB data (String.mk v1) && condValidB data (String.mk v2) with
  | false => simp [multiPassF]
  | true =>
    have hp := pyFormat_plain data content (fun c h => ⟨(hc c h).1, (hc c h).2.1⟩)
    simp [hp, multiPassF]
    rfl

/-- C1 (amended): over a single two-variable conditional block with
well-formed names and brace- and newline-free content, `format_output`
emits the placeholder-expanded content exactly when both variables, looked
up in the mapping with default `""`, are truthy and not the `"Not
started"` sentinel, and the empty string otherwise. -/
theorem C1_multi_conditional_truthiness (data : Raw) (v1 v2 content : List Char)
    (h1 : v1 ≠ []) (h2 : v2 ≠ [])
    (hn1 : ∀ c ∈ v1, c ≠ '}' ∧ c ≠ '&' ∧ isPySpace c = false)
    (hn2 : ∀ c ∈ v2, c ≠ '}' ∧ c ≠ '&' ∧ isPySpace c = false)
    (hc : ∀ c ∈ content, c ≠ '{' ∧ c ≠ '}' ∧ c ≠ '\n') :
    format_output
        (String.mk ('{' :: '?' :: (v1 ++ '&' :: v2 ++ '}' :: (content ++ [ '{', '/', '}'])))) data
      = .ok (String.mk
          (if condValidB data (String.mk v1) && condValidB data (String.mk v2)
           then content else [])) := by
  have hms := multiSub_block data v1 v2 content h1 h2 hn1 hn2 hc
  show (do
      let r1 ← multiSub data ('{' :: '?' :: (v1 ++ '&' :: v2 ++ '}' :: (content ++ [ '{', '/', '}'])))
      let r2 ← singleSub data r1
      let r3 ← pyFormat data r2
      pure (String.mk r3) : Except Unit String) = _
  rw [hms]
  cases hb : condValidB data (String.mk v1) && condValidB data (String.mk v2) with
  | false =>
    simp only [Bool.false_eq_true, if_false]
    rfl
  | true =>
    simp only [if_true]
    have hss := singleSub_plain data content (fun c h => (hc c h).1)
    have hpf := pyFormat_plain data content (fun c h => ⟨(hc c h).1, (hc c h).2.1⟩)
    rw [ok_bind, hss, ok_bind, hpf]
    rfl

/-- C1 witness: with both variables truthy the block body is emitted. -/
theorem C1_multi_conditional_witness :
    format_output
        (String.mk ('{' :: '?' :: ([ 'a'] ++ '&' :: [ 'b'] ++ '}' :: ([ 'C'] ++ [ '{', '/', '}']))))
        [("a", PyVal.pstr "1"), ("b", PyVal.pstr "x")]
      = .ok (String.mk
          (if condValidB [("a", PyVal.pstr "1"), ("b", PyVal.pstr "x")] (String.mk [ 'a'])
              && condValidB [("a", PyVal.pstr "1"), ("b", PyVal.pstr "x")] (String.mk [ 'b'])
           then [ 'C'] else [])) :=
  C1_multi_conditional_truthiness [("a", PyVal.pstr "1"), ("b", PyVal.pstr "x")]
    [ 'a'] [ 'b'] [ 'C'] (by decide) (by decide) (by decide) (by decide) (by decide)

/-- C1 counterexample: a variable that is present in the mapping but bound
to the empty string (truthiness fails, "present and not the sentinel"
holds) makes the block emit nothing, refuting the claim as stated. -/
theorem C1_claim_counterexample : ¬ C1Claim := by
  intro h
  have h2 := h [("a", PyVal.pstr ""), ("b", PyVal.pstr "x")] [ 'a'] [ 'b'] [ 'C']
    (by decide) (by decide) (by decide) (by decide) (by decide)
  exact absurd h2 (by decide)

theorem wordChar_ne (c : Char) (h : isWordChar c = true) :
    c ≠ '{' ∧ c ≠ '}' ∧ c ≠ '?' := by
  refine ⟨?_, ?_, ?_⟩ <;> rintro rfl <;> exact absurd h (by decide)

theorem TmplOK_stated (t : Tmpl) : TmplOK t → TmplStated t := by
  cases t with
  | lit s => exact id
  | hole n => exact fun h => ⟨h.1, h.2.1⟩

theorem noQB_flatten (ts : List Tmpl) (h : ∀ t ∈ ts, TmplStated t) :
    noQB (flattenT ts) = true := by
  induction ts with
  | nil => rfl
  | cons t ts ih =>
    have hts := ih (fun u hu => h u (by simp [hu]))
    cases t with
    | lit s =>
      have hs : TmplStated (.lit s) := h (.lit s) (by simp)
      simp only [flattenT]
      rw [noQB_append_plain s _ (fun c hc => (hs c hc).1)]
      exact hts
    | hole n =>
      have hn : TmplStated (.hole n) := h (.hole n) (by simp)
      obtain ⟨hne, hw⟩ := hn
      obtain ⟨a, n', rfl⟩ := List.exists_cons_of_ne_nil hne
      simp only [flattenT, List.cons_append]
      rw [noQB_brace a _ (wordChar_ne a (hw a (by simp))).2.2]
      rw [noQB_of_ne a _ (wordChar_ne a (hw a (by simp))).1]
      rw [noQB_append_plain n' _ (fun c hc => (wordChar_ne c (hw c (by simp [hc]))).1)]
      rw [noQB_of_ne '}' _ (by decide)]
      exact hts

theorem exceptMap_ok {α β : Type} (f : α → β) (a : α) :
    (Except.ok a : Except Unit α).map f = .ok (f a) := rfl

theorem exceptMap_error {α β : Type} (f : α → β) :
    (Except.error () : Except Unit α).map f = (.error () : Except Unit β) := rfl

theorem pyFormatF_append_plain (data : Raw) (s : List Char) :
    ∀ (fuel : Nat) (t : List Char), (∀ c ∈ s, c ≠ '{' ∧ c ≠ '}') → s.length ≤ fuel →
      pyFormatF data fuel (s ++ t) = (pyFormatF data (fuel - s.length) t).map (fun r => s ++ r) := by
  induction s with
  | nil =>
    intro fuel t _ _
    simp only [List.nil_append, List.length_nil, Nat.sub_zero]
    cases pyFormatF data fuel t <;> rfl
  | cons c s ih =>
    intro fuel t hs hf
    cases fuel with
    | zero => simp at hf
    | succ f =>
      have hc := hs c (by simp)
      rw [List.cons_append]
      have step : pyFormatF data (f + 1) (c :: (s ++ t))
          = (fun r => c :: r) <$> pyFormatF data f (s ++ t) := by
        simp [pyFormatF, hc.1, hc.2]
      rw [step, ih f t (fun d hd => hs d (by simp [hd])) (by simp at hf; omega)]
      simp only [List.length_cons, Nat.succ_sub_succ]
      cases pyFormatF data (f - s.length) t <;> rfl

theorem pyFormatF_hole (data : Raw) (fuel : Nat) (n rest : List Char)
    (hne : n ≠ []) (hw : ∀ c ∈ n, isWordChar c = true) (hdig : ¬(n.all Char.isDigit = true)) :
    pyFormatF data (fuel + 1) ('{' :: (n ++ '}' :: rest)) =
      (match List.lookup (String.mk n) data with
       | some v => (pyFormatF data fuel rest).map (fun r => v.toStr.toList ++ r)
       | none => .error ()) := by
  obtain ⟨a, n', rfl⟩ := List.exists_cons_of_ne_nil hne
  have ha := wordChar_ne a (hw a (by simp))
  have hstart : listStartsWith [ '{'] ((a :: n') ++ '}' :: rest) = false := by
    simp [listStartsWith, Ne.symm ha.1]
  have hpred : ∀ c ∈ a :: n', (fun d => !(d == '{' || d == '}')) c = true := by
    intro c hc
    have h2 := wordChar_ne c (hw c hc)
    simp [h2.1, h2.2.1]
  have htw := takeWhile_boundary (fun d => !(d == '{' || d == '}')) (a :: n') '}' rest hpred
    (by decide)
  have hdig2 : ((a :: n').all Char.isDigit) = false := by
    cases hb : (a :: n').all Char.isDigit with
    | false => rfl
    | true => exact absurd hb hdig
  simp only [pyFormatF, if_pos rfl, hstart, Bool.false_eq_true, if_false, htw.1, htw.2,
    List.isEmpty_cons, hdig2, Bool.or_false, Bool.false_eq_true, if_false, if_true]
  cases List.lookup (String.mk (a :: n')) data <;> rfl

theorem pyFormatF_flatten (data : Raw) (ts : List Tmpl) :
    ∀ fuel, (flattenT ts).length ≤ fuel → (∀ t ∈ ts, TmplOK t) →
      pyFormatF data fuel (flattenT ts) =
        if allKeysT data ts then .ok (substT data ts) else .error () := by
  induction ts with
  | nil =>
    intro fuel _ _
    simp only [flattenT, allKeysT, substT, if_true]
    cases fuel <;> rfl
  | cons t ts ih =>
    intro fuel hf h
    cases t with
    | lit s =>
      have hs : ∀ c ∈ s, c ≠ '{' ∧ c ≠ '}' := h (.lit s) (by simp)
      simp only [flattenT] at hf ⊢
      rw [pyFormatF_append_plain data s fuel (flattenT ts) hs (by simp at hf; omega)]
      rw [ih (fuel - s.length) (by simp at hf; omega) (fun u hu => h u (by simp [hu]))]
      simp only [allKeysT, substT]
      cases allKeysT data ts <;> simp [Except.map]
    | hole n =>
      obtain ⟨hne, hw, hdig⟩ := h (.hole n) (by simp)
      simp only [flattenT] at hf ⊢
      cases fuel with
      | zero => simp at hf
      | succ f =>
        rw [pyFormatF_hole data f n (flattenT ts) hne hw hdig]
        cases hlk : List.lookup (String.mk n) data with
        | none => simp [allKeysT, hlk]
        | some v =>
          rw [ih f (by simp at hf; omega) (fun u hu => h u (by simp [hu]))]
          simp only [allKeysT, substT, hlk, Option.isSome_some, Bool.true_and,
            Option.map_some, Option.getD_some]
          cases allKeysT data ts <;> simp [Except.map]

/-- C8 (amended): after the two conditional passes leave a residual string
of literal text and `{name}` placeholders untouched, the final
`str.format` pass substitutes every placeholder whose (not all-digit)
name is a key of the mapping and fails the whole render with an error as
soon as some name is not a key; an all-digit name is a positional
reference and fails even when present. -/
theorem C8_unknown_field_fails (data : Raw) (ts : List Tmpl) (h : ∀ t ∈ ts, TmplOK t) :
    format_output (String.mk (flattenT ts)) data =
      if allKeysT data ts then .ok (String.mk (substT data ts)) else .error () := by
  have hq := noQB_flatten ts (fun t ht => TmplOK_stated t (h t ht))
  have hm := multiPassF_id data (flattenT ts) (flattenT ts).length le_rfl hq
  have hs := singlePassF_id data (flattenT ts) (flattenT ts).length le_rfl hq
  have hp := pyFormatF_flatten data ts (flattenT ts).length le_rfl h
  show (do
      let r1 ← multiSub data (String.mk (flattenT ts)).toList
      let r2 ← singleSub data r1
      let r3 ← pyFormat data r2
      pure (String.mk r3) : Except Unit String) = _
  have htl : (String.mk (flattenT ts)).toList = flattenT ts := rfl
  rw [htl]
  show (do
      let r1 ← multiPassF data (flattenT ts).length (flattenT ts)
      let r2 ← singleSub data r1
      let r3 ← pyFormat data r2
      pure (String.mk r3) : Except Unit String) = _
  rw [hm, ok_bind]
  show (do
      let r2 ← singlePassF data (flattenT ts).length (flattenT ts)
      let r3 ← pyFormat data r2
      pure (String.mk r3) : Except Unit String) = _
  rw [hs, ok_bind]
  show (do
      let r3 ← pyFormatF data (flattenT ts).length (flattenT ts)
      pure (String.mk r3) : Except Unit String) = _
  rw [hp]
  cases allKeysT data ts <;> simp

/-- C8 witness: one literal fragment and one known placeholder render to
the substituted text. -/
theorem C8_unknown_field_witness :
    format_output (String.mk (flattenT [Tmpl.lit [ 'P'], Tmpl.hole [ 'p', 'c', 't']]))
        [("pct", PyVal.pint 42)]
      = if allKeysT [("pct", PyVal.pint 42)] [Tmpl.lit [ 'P'], Tmpl.hole [ 'p', 'c', 't']]
        then .ok (String.mk (substT [("pct", PyVal.pint 42)]
               [Tmpl.lit [ 'P'], Tmpl.hole [ 'p', 'c', 't']]))
        else .error () :=
  C8_unknown_field_fails [("pct", PyVal.pint 42)] [Tmpl.lit [ 'P'], Tmpl.hole [ 'p', 'c', 't']]
    (by
      intro t ht
      rcases List.mem_cons.mp ht with rfl | ht2
      · exact fun c hc => by
          rcases List.mem_singleton.mp hc with rfl
          exact ⟨by decide, by decide⟩
      · rcases List.mem_singleton.mp ht2 with rfl
        exact ⟨by decide, by decide, by decide⟩)

/-- C8 counterexample: the all-digit placeholder `{0}` fails the render
even though `"0"` is a key of the mapping (`str.format` treats an
all-digit field name as a positional-argument index, and no positional
arguments are passed), refuting the claim as stated. -/
theorem C8_claim_counterexample : ¬ C8Claim := by
  intro h
  have h2 := h [("0", PyVal.pstr "x")] [Tmpl.hole [ '0']]
    (by
      intro t ht
      rcases List.mem_singleton.mp ht with rfl
      exact ⟨by decide, by decide⟩)
  exact absurd h2 (by decide)

theorem bind_ok_inv {α β : Type} (x : Except Unit α) (f : α → Except Unit β) (r : β)
    (h : (x >>= f) = .ok r) : ∃ a, x = .ok a ∧ f a = .ok r := by
  cases x with
  | error e => exact Except.noConfusion h
  | ok a => exact ⟨a, rfl, h⟩

/-- C2: a long window at or above 100% always forces status `Pause`, and
the force-flag still selects the short window for display: its rounded
percentage and reset string populate the active-window fields while the
status stays `Pause` (both scripts). -/
theorem C2_pause_overrides (secsOf : PyVal → Option Int)
    (five_hour seven_day primary secondary : Option Raw) (b : Bool) (r : WaybarResult) :
    (100 ≤ (parse_window_percent seven_day "utilization").utilization →
      ((claude_print_waybar secsOf five_hour seven_day b).status = "Pause" ∧
       (b = true →
         (claude_print_waybar secsOf five_hour seven_day b).win = "5h" ∧
         (claude_print_waybar secsOf five_hour seven_day b).pct
             = pyRound (parse_window_percent five_hour "utilization").utilization ∧
         (claude_print_waybar secsOf five_hour seven_day b).reset
             = (if (parse_window_percent five_hour "utilization").resets_at.truthy
                then format_eta secsOf (parse_window_percent five_hour "utilization").resets_at
                else "Not started")))) ∧
    (codex_print_waybar secsOf primary secondary b = .ok r →
      100 ≤ (parse_window_direct secondary).utilization →
      (r.status = "Pause" ∧
       (b = true → r.win = "Primary" ∧
         r.pct = pyRound (parse_window_direct primary).utilization))) := by
  constructor
  · intro h100
    constructor
    · simp only [claude_print_waybar]
      rw [if_pos h100]
    · rintro rfl
      simp [claude_print_waybar, claudeSelect]
  · intro hok h100
    simp only [codex_print_waybar, h100, if_true] at hok
    split at hok
    · split at hok
      · have hr2 := Except.ok.inj hok
        subst hr2
        refine ⟨rfl, ?_⟩
        rintro rfl
        simp [codexSelect]
      · exact Except.noConfusion hok
    · have hr2 := Except.ok.inj hok
      subst hr2
      refine ⟨rfl, ?_⟩
      rintro rfl
      simp [codexSelect]

/-- C2 witness: long window at 100%, force-flag set — status `Pause`,
displayed window is the short one, in both scripts. -/
theorem C2_pause_overrides_witness :
    ((claude_print_waybar (fun _ => none) (some [("utilization", PyVal.pint 37)])
        (some [("utilization", PyVal.pint 100)]) true).status = "Pause" ∧
      (claude_print_waybar (fun _ => none) (some [("utilization", PyVal.pint 37)])
        (some [("utilization", PyVal.pint 100)]) true).win = "5h") ∧
    ((⟨"Primary", 37, "Pause", "Not started", "codex-low", 37⟩ : WaybarResult).status
        = "Pause" ∧
      (⟨"Primary", 37, "Pause", "Not started", "codex-low", 37⟩ : WaybarResult).win
        = "Primary") := by
  have h := C2_pause_overrides (fun _ => none)
    (some [("utilization", PyVal.pint 37)]) (some [("utilization", PyVal.pint 100)])
    (some [("used_percent", PyVal.pint 37)]) (some [("used_percent", PyVal.pint 100)]) true
    ⟨"Primary", 37, "Pause", "Not started", "codex-low", 37⟩
  have hcl := h.1 (by decide)
  have hcx := h.2 (by decide) (by decide)
  exact ⟨⟨hcl.1, (hcl.2 rfl).1⟩, ⟨hcx.1, (hcx.2 rfl).1⟩⟩

/-- C4: the active window is chosen by the fixed precedence — force-flag
first, then long-window utilization at or above 100, then strictly above
80, short window otherwise; at exactly 80 the short window is active
(both scripts). -/
theorem C4_selection_precedence (secsOf : PyVal → Option Int)
    (five_hour seven_day primary secondary : Option Raw) (b : Bool) (r : WaybarResult) :
    ((b = true → (claude_print_waybar secsOf five_hour seven_day b).win = "5h") ∧
     (b = false → 100 ≤ (parse_window_percent seven_day "utilization").utilization →
        (claude_print_waybar secsOf five_hour seven_day b).win = "7d") ∧
     (b = false → 80 < (parse_window_percent seven_day "utilization").utilization →
        (claude_print_waybar secsOf five_hour seven_day b).win = "7d") ∧
     (b = false → (parse_window_percent seven_day "utilization").utilization ≤ 80 →
        (claude_print_waybar secsOf five_hour seven_day b).win = "5h")) ∧
    (codex_print_waybar secsOf primary secondary b = .ok r →
      ((b = true → r.win = "Primary") ∧
       (b = false → 100 ≤ (parse_window_direct secondary).utilization →
          r.win = "Secondary") ∧
       (b = false → 80 < (parse_window_direct secondary).utilization →
          r.win = "Secondary") ∧
       (b = false → (parse_window_direct secondary).utilization ≤ 80 →
          r.win = "Primary"))) := by
  have hwin : ∀ bb, (claude_print_waybar secsOf five_hour seven_day bb).win
      = (claudeSelect (parse_window_percent five_hour "utilization")
          (parse_window_percent seven_day "utilization") bb).2.1 := by
    intro bb; rfl
  have hcodex : codex_print_waybar secsOf primary secondary b = .ok r →
      r.win = (codexSelect (parse_window_direct primary) (parse_window_direct secondary)
        (primary.getD []) (secondary.getD []) b).2.2 := by
    intro hok
    simp only [codex_print_waybar] at hok
    split at hok
    · split at hok
      · have hr2 := Except.ok.inj hok
        subst hr2
        rfl
      · exact Except.noConfusion hok
    · have hr2 := Except.ok.inj hok
      subst hr2
      rfl
  constructor
  · refine ⟨?_, ?_, ?_, ?_⟩
    · rintro rfl; rw [hwin]; simp [claudeSelect]
    · rintro rfl h100; rw [hwin]; simp [claudeSelect, if_pos h100]
    · rintro rfl h80
      rw [hwin]
      by_cases h100 : 100 ≤ (parse_window_percent seven_day "utilization").utilization
      · simp [claudeSelect, if_pos h100]
      · simp [claudeSelect, h100, h80]
    · rintro rfl h80
      have h100 : ¬ 100 ≤ (parse_window_percent seven_day "utilization").utilization := by
        intro h; exact absurd (le_trans h h80) (by norm_num)
      have h80n : ¬ 80 < (parse_window_percent seven_day "utilization").utilization :=
        not_lt.mpr h80
      rw [hwin]; simp [claudeSelect, h100, h80n]
  · intro hok
    have hwr := hcodex hok
    refine ⟨?_, ?_, ?_, ?_⟩
    · rintro rfl; rw [hwr]; simp [codexSelect]
    · rintro rfl h100; rw [hwr]; simp [codexSelect, if_pos h100]
    · rintro rfl h80
      rw [hwr]
      by_cases h100 : 100 ≤ (parse_window_direct secondary).utilization
      · simp [codexSelect, if_pos h100]
      · simp [codexSelect, h100, h80]
    · rintro rfl h80
      have h100 : ¬ 100 ≤ (parse_window_direct secondary).utilization := by
        intro h; exact absurd (le_trans h h80) (by norm_num)
      have h80n : ¬ 80 < (parse_window_direct secondary).utilization := not_lt.mpr h80
      rw [hwr]; simp [codexSelect, h100, h80n]

/-- C4 witness: at long-window utilization exactly 80 with no force-flag
the short window is active (claude), and at 81 the long window is active
(codex). -/
theorem C4_selection_precedence_witness :
    (claude_print_waybar (fun _ => none) (some [("utilization", PyVal.pint 10)])
        (some [("utilization", PyVal.pint 80)]) false).win = "5h" ∧
    (⟨"Secondary", 81, "", "Not started", "codex-high", 81⟩ : WaybarResult).win
      = "Secondary" := by
  have h := C4_selection_precedence (fun _ => none)
    (some [("utilization", PyVal.pint 10)]) (some [("utilization", PyVal.pint 80)])
    (some [("used_percent", PyVal.pint 10)]) (some [("used_percent", PyVal.pint 81)]) false
    ⟨"Secondary", 81, "", "Not started", "codex-high", 81⟩
  refine ⟨h.1.2.2.2 rfl (by decide), ?_⟩
  have hc := h.2 (by decide)
  exact hc.2.2.1 rfl (by decide)

theorem codex_cls_pct (secsOf : PyVal → Option Int) (primary secondary : Option Raw)
    (b : Bool) (r : WaybarResult)
    (hok : codex_print_waybar secsOf primary secondary b = .ok r) :
    r.cls = codexCls r.pct := by
  simp only [codex_print_waybar] at hok
  split at hok
  · split at hok
    · have hr2 := Except.ok.inj hok
      subst hr2
      rfl
    · exact Except.noConfusion hok
  · have hr2 := Except.ok.inj hok
    subst hr2
    rfl

/-- C6: the severity class is the low tier below 50, the mid tier from 50
up to but excluding 80, and the high tier from 80 on; both scripts derive
it from the selected rounded percentage. -/
theorem C6_severity_boundaries (pct : Int) (secsOf : PyVal → Option Int)
    (five_hour seven_day primary secondary : Option Raw) (b : Bool) (r : WaybarResult) :
    ((pct < 50 → claudeCls pct = "claude-low" ∧ codexCls pct = "codex-low") ∧
     (50 ≤ pct → pct < 80 → claudeCls pct = "claude-mid" ∧ codexCls pct = "codex-mid") ∧
     (80 ≤ pct → claudeCls pct = "claude-high" ∧ codexCls pct = "codex-high")) ∧
    ((claude_print_waybar secsOf five_hour seven_day b).cls
        = claudeCls (claude_print_waybar secsOf five_hour seven_day b).pct) ∧
    (codex_print_waybar secsOf primary secondary b = .ok r → r.cls = codexCls r.pct) := by
  refine ⟨⟨?_, ?_, ?_⟩, rfl, codex_cls_pct secsOf primary secondary b r⟩
  · intro h
    exact ⟨by simp [claudeCls, if_pos h], by simp [codexCls, if_pos h]⟩
  · intro h1 h2
    have hn : ¬ pct < 50 := not_lt.mpr h1
    exact ⟨by simp [claudeCls, hn, h2], by simp [codexCls, hn, h2]⟩
  · intro h
    have hn1 : ¬ pct < 50 := by omega
    have hn2 : ¬ pct < 80 := by omega
    exact ⟨by simp [claudeCls, hn1, hn2], by simp [codexCls, hn1, hn2]⟩

/-- C6 witness: the boundary values 49, 50, 79 and 80. -/
theorem C6_severity_boundaries_witness :
    (claudeCls 49 = "claude-low" ∧ codexCls 49 = "codex-low") ∧
    (claudeCls 50 = "claude-mid" ∧ codexCls 50 = "codex-mid") ∧
    (claudeCls 79 = "claude-mid" ∧ codexCls 79 = "codex-mid") ∧
    (claudeCls 80 = "claude-high" ∧ codexCls 80 = "codex-high") := by
  refine ⟨?_, ?_, ?_, ?_⟩
  · exact (C6_severity_boundaries 49 (fun _ => none) none none none none false
      ⟨"", 0, "", "", "", 0⟩).1.1 (by decide)
  · exact (C6_severity_boundaries 50 (fun _ => none) none none none none false
      ⟨"", 0, "", "", "", 0⟩).1.2.1 (by decide) (by decide)
  · exact (C6_severity_boundaries 79 (fun _ => none) none none none none false
      ⟨"", 0, "", "", "", 0⟩).1.2.1 (by decide) (by decide)
  · exact (C6_severity_boundaries 80 (fun _ => none) none none none none false
      ⟨"", 0, "", "", "", 0⟩).1.2.2 (by decide)


/-- C3 (amended): when the Pause rule does not apply, the status is
`Ready` exactly when the target window has utilization 0 and either no
reset timestamp at all, or a truthy timestamp whose remaining seconds
parse successfully to at least the window's nominal length minus 1
second (the code's one-sided `reset_after >= window_length - 1` test).
A parse failure (`secsOf` returning `none`) propagates no exception and
only suppresses the unused classification. -/
theorem C3_ready_rule (secsOf : PyVal → Option Int)
    (five_hour seven_day : Option Raw) (show_5h : Bool)
    (hno : (parse_window_percent seven_day "utilization").utilization < 100) :
    ((claude_print_waybar secsOf five_hour seven_day show_5h).status = "Ready" ↔
      ((claudeTarget five_hour seven_day show_5h).1.utilization = 0 ∧
        ((claudeTarget five_hour seven_day show_5h).1.resets_at = PyVal.pnone ∨
          ((claudeTarget five_hour seven_day show_5h).1.resets_at.truthy = true ∧
            ∃ rem : Int,
              secsOf (claudeTarget five_hour seven_day show_5h).1.resets_at = some rem ∧
              (claudeTarget five_hour seven_day show_5h).2.2 - 1 ≤ rem)))) := by
  have hns : ¬ (100 ≤ (parse_window_percent seven_day "utilization").utilization) :=
    not_le.mpr hno
  simp only [claude_print_waybar, claudeTarget]
  rw [if_neg hns]
  have hiff : ∀ b : Bool, ((if b = true then "Ready" else "") = "Ready") ↔ b = true := by
    intro b; cases b <;> simp
  rw [hiff]
  rcases hsec : secsOf (claudeSelect (parse_window_percent five_hour "utilization")
      (parse_window_percent seven_day "utilization") show_5h).1.resets_at with _ | rem
  · simp only [hsec, Bool.and_false, Bool.false_or, Bool.or_eq_true, Bool.and_eq_true,
      decide_eq_true_iff]
    simp
  · simp only [hsec, Bool.or_eq_true, Bool.and_eq_true, decide_eq_true_iff,
      Option.some.injEq, exists_eq_left']
    tauto

/-- C3 witness: a short window with utilization 0 whose reset is exactly
the full window length away is classified `Ready`. -/
theorem C3_ready_rule_witness :
    (claude_print_waybar (fun _ => some 18000)
        (some [("utilization", PyVal.pint 0), ("resets_at", PyVal.pint 5)]) none true).status
      = "Ready" := by
  have h := C3_ready_rule (fun _ => some 18000)
    (some [("utilization", PyVal.pint 0), ("resets_at", PyVal.pint 5)]) none true (by decide)
  exact h.mpr ⟨by decide, Or.inr ⟨by decide, ⟨18000, rfl, by decide⟩⟩⟩

/-- C3 counterexample: remaining time two seconds beyond the window
length is not within 1 second of it, yet the code still reports `Ready`
(the test is the one-sided `reset_after >= window_length - 1`), refuting
the two-sided "within 1 second" reading of the claim. -/
theorem C3_claim_counterexample : ¬ C3Claim := by
  intro h
  have h2 := h (fun _ => some 18002)
    (some [("utilization", PyVal.pint 0), ("resets_at", PyVal.pint 5)]) none true (by decide)
  have hready : (claude_print_waybar (fun _ => some 18002)
      (some [("utilization", PyVal.pint 0), ("resets_at", PyVal.pint 5)]) none true).status
      = "Ready" := by decide
  obtain ⟨_, hcase⟩ := h2.mp hready
  rcases hcase with hp | ⟨rem, hrem, habs⟩
  · exact absurd hp (by decide)
  · obtain rfl := (Option.some.inj hrem).symm
    exact absurd habs (by decide)

/-- C5: for a truthy reset value whose timestamp parses, the ETA string is
determined by the whole number of remaining seconds: `"0m00s"` when
elapsed, days+hours from 86400s, hours+minutes from 3600s,
minutes+seconds otherwise; a parse failure yields the fixed error
placeholder. -/
theorem C5_format_eta_buckets (secsOf : PyVal → Option Int) (reset_at : PyVal) (s : Int) :
    (reset_at.truthy = true → secsOf reset_at = some s →
      ((s ≤ 0 → format_eta secsOf reset_at = "0m00s") ∧
       (86400 ≤ s → format_eta secsOf reset_at
           = toString (s / 86400) ++ "d" ++ pad2 (s % 86400 / 3600) ++ "h") ∧
       (3600 ≤ s → s < 86400 → format_eta secsOf reset_at
           = toString (s / 3600) ++ "h" ++ pad2 (s % 3600 / 60) ++ "m") ∧
       (0 < s → s < 3600 → format_eta secsOf reset_at
           = toString (s / 60) ++ "m" ++ pad2 (s % 60) ++ "s"))) ∧
    (reset_at.truthy = true → secsOf reset_at = none →
      format_eta secsOf reset_at = "??′??″") := by
  constructor
  · intro ht hs
    have hfe : format_eta secsOf reset_at =
        (if s ≤ 0 then "0m00s"
         else if 86400 ≤ s then toString (s / 86400) ++ "d" ++ pad2 (s % 86400 / 3600) ++ "h"
         else if 3600 ≤ s then toString (s / 3600) ++ "h" ++ pad2 (s % 3600 / 60) ++ "m"
         else toString (s / 60) ++ "m" ++ pad2 (s % 60) ++ "s") := by
      simp [format_eta, ht, hs]
    rw [hfe]
    refine ⟨?_, ?_, ?_, ?_⟩
    · intro h0; rw [if_pos h0]
    · intro h86; rw [if_neg (by omega), if_pos h86]
    · intro h36 hlt; rw [if_neg (by omega), if_neg (by omega), if_pos h36]
    · intro hpos hlt; rw [if_neg (by omega), if_neg (by omega), if_neg (by omega)]
  · intro ht hn
    simp [format_eta, ht, hn]

/-- C5 witness: 5000 remaining seconds render as `1h23m` and a parse
failure as the error placeholder. -/
theorem C5_format_eta_buckets_witness :
    format_eta (fun _ => some 5000) (PyVal.pint 1) = "1h23m" ∧
    format_eta (fun _ => none) (PyVal.pint 1) = "??′??″" := by
  constructor
  · have h := ((C5_format_eta_buckets (fun _ => some 5000) (PyVal.pint 1) 5000).1
      (by decide) rfl).2.2.1 (by decide) (by decide)
    rw [h]
    decide
  · exact (C5_format_eta_buckets (fun _ => none) (PyVal.pint 1) 0).2 (by decide) rfl

/-- C7: the window parsers are total; absent input yields utilization 0
with no reset value, and a missing or non-numeric utilization field
yields 0.0 while `resets_at` is passed through unchanged. -/
theorem C7_parser_defaults (raw : Raw) (key : String) :
    (parse_window_percent none key = ⟨0, PyVal.pnone⟩ ∧
     parse_window_direct none = ⟨0, PyVal.pnone⟩) ∧
    ((parse_window_percent (some raw) key).resets_at = pyGet raw "resets_at" ∧
     (pyFloat (pyGet raw key) = none → (parse_window_percent (some raw) key).utilization = 0)) ∧
    ((parse_window_direct (some raw)).resets_at = pyGet raw "reset_at" ∧
     (pyFloat (pyGet raw "used_percent") = none →
       (parse_window_direct (some raw)).utilization = 0)) := by
  refine ⟨⟨?_, ?_⟩, ⟨rfl, ?_⟩, ⟨rfl, ?_⟩⟩
  · simp [parse_window_percent, pyGet, pyFloat, PyVal.truthy]
  · simp [parse_window_direct, pyGet, pyFloat, PyVal.truthy]
  · intro hnone
    by_cases ht : (pyGet raw key).truthy
    · simp [parse_window_percent, ht, hnone]
    · simp [parse_window_percent, ht, pyFloat]
  · intro hnone
    by_cases ht : (pyGet raw "used_percent").truthy
    · simp [parse_window_direct, ht, hnone]
    · simp [parse_window_direct, ht, pyFloat]

/-- C7 witness: a non-numeric utilization string maps to 0.0 and the
reset value is passed through. -/
theorem C7_parser_defaults_witness :
    (parse_window_percent (some [("utilization", PyVal.pstr "abc"),
        ("resets_at", PyVal.pstr "soon")]) "utilization").utilization = 0 ∧
    (parse_window_percent (some [("utilization", PyVal.pstr "abc"),
        ("resets_at", PyVal.pstr "soon")]) "utilization").resets_at = PyVal.pstr "soon" := by
  have h := C7_parser_defaults
    [("utilization", PyVal.pstr "abc"), ("resets_at", PyVal.pstr "soon")] "utilization"
  exact ⟨h.2.1.2 (by decide), by rw [h.2.1.1]; decide⟩

theorem hexDigit_ne_newline (n : Nat) : hexDigit n ≠ '\n' := by
  unfold hexDigit
  have h : n % 16 < 16 := Nat.mod_lt _ (by norm_num)
  set k := n % 16 with hk
  interval_cases k <;> decide

theorem uEscape_no_newline (m : Nat) : '\n' ∉ uEscape m := by
  intro hmem
  simp only [uEscape, hex4, List.mem_cons, List.not_mem_nil, or_false] at hmem
  rcases hmem with h | h | h | h | h | h
  · exact absurd h (by decide)
  · exact absurd h (by decide)
  · exact hexDigit_ne_newline _ h.symm
  · exact hexDigit_ne_newline _ h.symm
  · exact hexDigit_ne_newline _ h.symm
  · exact hexDigit_ne_newline _ h.symm

theorem jsonEscapeChar_no_newline (c : Char) : '\n' ∉ jsonEscapeChar c := by
  unfold jsonEscapeChar
  split_ifs with h1 h2 h3 h4 h5 h6 h7 h8 h9
  · decide
  · decide
  · decide
  · decide
  · decide
  · decide
  · decide
  · exact uEscape_no_newline _
  · intro hmem
    rcases List.mem_append.mp hmem with h | h
    · exact uEscape_no_newline _ h
    · exact uEscape_no_newline _ h
  · intro hmem
    rcases List.mem_singleton.mp hmem with rfl
    exact h3 rfl

theorem jsonEscape_no_newline (s : String) : '\n' ∉ jsonEscape s := by
  unfold jsonEscape
  induction s.toList with
  | nil => simp
  | cons c t ih =>
    simp only [List.foldr_cons]
    intro hmem
    rcases List.mem_append.mp hmem with h | h
    · exact jsonEscapeChar_no_newline c h
    · exact ih h

theorem jsonMember_no_newline (kv : String × String) : '\n' ∉ jsonMember kv := by
  intro hmem
  have hk := jsonEscape_no_newline kv.1
  have hv := jsonEscape_no_newline kv.2
  simp [jsonMember, hk, hv] at hmem

theorem jsonMembers_no_newline (kvs : List (String × String)) : '\n' ∉ jsonMembers kvs := by
  induction kvs with
  | nil => simp [jsonMembers]
  | cons kv rest ih =>
    cases rest with
    | nil => exact jsonMember_no_newline kv
    | cons kv2 rest2 =>
      intro hmem
      have h1 := jsonMember_no_newline kv
      simp only [jsonMembers, List.mem_append, List.mem_cons] at hmem
      rcases hmem with h | h | h | h
      · exact h1 h
      · exact absurd h (by decide)
      · exact absurd h (by decide)
      · exact ih h

theorem jsonDumps_no_newline (kvs : List (String × String)) :
    '\n' ∉ (jsonDumps kvs).toList := by
  intro hmem
  have h1 := jsonMembers_no_newline kvs
  simp [jsonDumps, h1] at hmem

/-- C9: on a fetch failure, waybar mode prints the single-line
`json.dumps` error payload (no newline can survive its escaping) on
stdout and exits 0, while plain mode prints on stderr and exits 1 — for
both scripts. -/
theorem C9_fetch_error_exit (b : Bool) (msg : String) :
    (b = true →
      ((claude_fetch_error_exit b msg).code = 0 ∧
       (claude_fetch_error_exit b msg).channel = Channel.stdout ∧
       '\n' ∉ (claude_fetch_error_exit b msg).output.toList ∧
       (codex_fetch_error_exit b msg).code = 0 ∧
       (codex_fetch_error_exit b msg).channel = Channel.stdout ∧
       '\n' ∉ (codex_fetch_error_exit b msg).output.toList)) ∧
    (b = false →
      ((claude_fetch_error_exit b msg).code = 1 ∧
       (claude_fetch_error_exit b msg).channel = Channel.stderr ∧
       (codex_fetch_error_exit b msg).code = 1 ∧
       (codex_fetch_error_exit b msg).channel = Channel.stderr)) := by
  constructor
  · rintro rfl
    exact ⟨rfl, rfl, jsonDumps_no_newline _, rfl, rfl, jsonDumps_no_newline _⟩
  · rintro rfl
    exact ⟨rfl, rfl, rfl, rfl⟩

/-- C9 witness: a message containing a newline and `403` still produces a
single-line payload with exit code 0 in waybar mode, and exit code 1
otherwise. -/
theorem C9_fetch_error_exit_witness :
    ((claude_fetch_error_exit true "boom\n403").code = 0 ∧
     '\n' ∉ (claude_fetch_error_exit true "boom\n403").output.toList) ∧
    (claude_fetch_error_exit false "boom").code = 1 := by
  have h1 := (C9_fetch_error_exit true "boom\n403").1 rfl
  have h2 := (C9_fetch_error_exit false "boom").2 rfl
  exact ⟨⟨h1.1, h1.2.2.1⟩, h2.1⟩

/-- C10: `format_eta` treats every falsy reset value — `None`, the
integer 0, the float 0.0 and the empty string — as absent, returning the
fixed placeholder `0′00″` without computing a delta; in particular epoch
0 is not reported as the elapsed result `0m00s`. -/
theorem C10_falsy_reset_absent (secsOf : PyVal → Option Int) :
    format_eta secsOf (PyVal.pint 0) = "0′00″" ∧
    format_eta secsOf (PyVal.pstr "") = "0′00″" ∧
    format_eta secsOf PyVal.pnone = "0′00″" ∧
    format_eta secsOf (PyVal.prat 0) = "0′00″" ∧
    format_eta secsOf (PyVal.pint 0) ≠ "0m00s" := by
  refine ⟨rfl, rfl, rfl, ?_, ?_⟩
  · simp [format_eta, PyVal.truthy]
  · intro h
    have h2 : ("0′00″" : String) = "0m00s" := by
      calc ("0′00″" : String) = format_eta secsOf (PyVal.pint 0) := rfl
        _ = "0m00s" := h
    exact absurd h2 (by decide)
